import Mathlib

/-!
Verification development for the libgqlts typed GraphQL client.

This file shallowly embeds the relevant source code:
  * the dynamic Shape Tree values the library traverses at runtime
    (JavaScript values: validator handles, arrays, plain objects,
    strings, numbers, booleans, null, undefined),
  * the query compiler `buildGraphQLQuery`,
  * the validator compiler `createZodSchemaFromShape`,
  * the typed construction path `Query.typed` (including the
    variable-list rendering with the `named`/`name` annotation of
    zodExtensions.ts),
  * the error formatter `createGraphQLError` of errors.ts, and
  * the response-classification part of `Query.execute` (everything
    after the transport exchange returned a parsed JSON body).

The zod validation library is an external collaborator; its leaf
validators are modelled as opaque handles carrying an identity and the
optional type-name annotation from the WeakMap in zodExtensions.ts, and
the composite validators `z.object` / `z.array` are modelled with their
documented default parsing semantics (required fields, arrays of
validated elements, unknown keys ignored for acceptance).
-/

namespace Gql

/-- Opaque leaf validator handle: identity plus the optional name
annotation stored by `zodExtensions.ts` in a WeakMap keyed by the
validator object, read back by `.name()`. -/
structure ZodLeaf where
  vid : Nat
  tyName : Option String

/-- Runtime JavaScript values that can occur in a Shape Tree or in a
parsed JSON response body.  `zod` is a value for which the runtime probe
`isZodSchema` (parse / safeParse / _def present) succeeds; `obj` is a
plain object given by its own enumerable entries in insertion order. -/
inductive JSValue where
  | zod (leaf : ZodLeaf)
  | arr (elems : List JSValue)
  | obj (fields : List (String × JSValue))
  | str (s : String)
  | num (n : Int)
  | bool (b : Bool)
  | jnull
  | undefined

/-- JavaScript `typeof`. -/
def jsTypeof : JSValue → String
  | .zod _ => "object"
  | .arr _ => "object"
  | .obj _ => "object"
  | .str _ => "string"
  | .num _ => "number"
  | .bool b => cond b "boolean" "boolean"
  | .jnull => "object"
  | .undefined => "undefined"

/-- The runtime type guard `isZodSchema` of the source: checks for the
`parse`, `safeParse` and `_def` members.  In this model plain objects
appearing in a Shape Tree do not carry those members, so the probe
succeeds exactly on validator handles. -/
def isZodSchema : JSValue → Bool
  | .zod _ => true
  | _ => false

/-- JavaScript truthiness. -/
def truthy : JSValue → Bool
  | .zod _ => true
  | .arr _ => true
  | .obj _ => true
  | .str s => !(s == "")
  | .num n => !(n == 0)
  | .bool b => b
  | .jnull => false
  | .undefined => false

/-- Null or undefined (property access on these throws a TypeError). -/
def isNullish : JSValue → Bool
  | .jnull => true
  | .undefined => true
  | _ => false

mutual
/-- JavaScript ToString, as used by template-literal interpolation.
Plain objects and validator handles stringify to [object Object];
arrays stringify as their comma-joined elements with null and undefined
rendered empty. -/
def jsToString : JSValue → String
  | .str s => s
  | .num n => toString n
  | .bool b => cond b "true" "false"
  | .jnull => "null"
  | .undefined => "undefined"
  | .zod _ => "[object Object]"
  | .obj _ => "[object Object]"
  | .arr es => String.intercalate "," (jsJoinParts es)

/-- Element rendering of Array.prototype.toString (join with comma). -/
def jsJoinParts : List JSValue → List String
  | [] => []
  | v :: rest => (if isNullish v then "" else jsToString v) :: jsJoinParts rest
end

/-- Property read on a value that is known not to be nullish.  Arrays
and strings expose `length`; plain objects expose their own entries;
other property reads yield undefined.  Index properties of arrays and
the own properties of validator handles are not modelled (no code path
under verification reads them). -/
def getPropD : JSValue → String → JSValue
  | .obj fs, k => (List.lookup k fs).getD .undefined
  | .arr es, k => if k = "length" then .num es.length else .undefined
  | .str s, k => if k = "length" then .num s.length else .undefined
  | _, _ => .undefined

/-- Property read as JavaScript evaluates it: on null or undefined it
throws a TypeError, otherwise it behaves like `getPropD`. -/
def getProp : JSValue → String → Except String JSValue
  | .jnull, k => .error ("TypeError: cannot read properties of null (reading " ++ k ++ ")")
  | .undefined, k => .error ("TypeError: cannot read properties of undefined (reading " ++ k ++ ")")
  | v, k => .ok (getPropD v k)

/-- The `in` operator: key membership for objects, index keys and
`length` for arrays; throws a TypeError on primitives, null and
undefined. -/
def jsIn (k : String) : JSValue → Except String Bool
  | .obj fs => .ok (fs.any (fun p => p.1 == k))
  | .arr es => .ok (k == "length" || (match k.toNat? with
      | some i => decide (i < es.length)
      | none => false))
  | .zod _ => .ok false
  | _ => .error ("TypeError: cannot use in operator to search for " ++ k)

/-- Own enumerable entries of a value, as Object.entries yields them for
the argument map stored under `_args`: entries of a plain object, index
entries of an array.  The own properties of a validator handle are not
modelled. -/
def objEntries : JSValue → List (String × JSValue)
  | .obj fs => fs
  | .arr es => es.enum.map (fun p => (toString p.1, p.2))
  | _ => []

/-- The greater-than-zero test the source applies to a `.length` read
(`x.length > 0`): false when the read yielded undefined. -/
def jsGtZero : JSValue → Bool
  | .num n => decide (0 < n)
  | _ => false

mutual
/-- `buildGraphQLQuery` (src/unnamed/part_000, lines 133 to 167): walk
the shape, emit the space-joined field parts.  Iterating a plain object
iterates its entries; iterating an array iterates its indexed entries;
Object.entries throws on null and undefined; primitives contribute no
entries.  The own entries of a validator handle are not modelled (no
claim reaches that case). -/
def buildGraphQLQuery : JSValue → Except String String
  | .obj fs => (buildFields fs).map (String.intercalate " ")
  | .arr es => (buildArrayFields 0 es).map (String.intercalate " ")
  | .jnull => .error "TypeError: cannot convert null to object"
  | .undefined => .error "TypeError: cannot convert undefined to object"
  | _ => .ok ""

/-- Loop body of `buildGraphQLQuery` over the entry list, in source
order: skip `_args`; a zod value emits just the key; a non-empty array
emits the key and the compiled first element; any other value of typeof
object emits the key, the optional argument list read from its `_args`
property, and its compiled selection set; all remaining values are
skipped silently. -/
def buildFields : List (String × JSValue) → Except String (List String)
  | [] => .ok []
  | (key, value) :: rest =>
    if key = "_args" then
      buildFields rest
    else if isZodSchema value then do
      let tail ← buildFields rest
      .ok (key :: tail)
    else
      match value with
      | .arr (first :: _) => do
          let inner ← buildGraphQLQuery first
          let tail ← buildFields rest
          .ok ((key ++ " \x7b " ++ inner ++ " \x7d") :: tail)
      | v =>
        if jsTypeof v = "object" then do
          let args ← getProp v "_args"
          let argsString :=
            if truthy args && (jsTypeof args = "object") then
              let argParts := (objEntries args).map (fun p => p.1 ++ ": " ++ jsToString p.2)
              if argParts.length > 0 then
                "(" ++ String.intercalate ", " argParts ++ ")"
              else ""
            else ""
          let inner ← buildGraphQLQuery v
          let tail ← buildFields rest
          .ok ((key ++ argsString ++ " \x7b " ++ inner ++ " \x7d") :: tail)
        else
          buildFields rest

/-- Same loop body applied to an array, whose Object.entries keys are
the decimal indices. -/
def buildArrayFields (i : Nat) : List JSValue → Except String (List String)
  | [] => .ok []
  | value :: rest =>
    let key := toString i
    if key = "_args" then
      buildArrayFields (i + 1) rest
    else if isZodSchema value then do
      let tail ← buildArrayFields (i + 1) rest
      .ok (key :: tail)
    else
      match value with
      | .arr (first :: _) => do
          let inner ← buildGraphQLQuery first
          let tail ← buildArrayFields (i + 1) rest
          .ok ((key ++ " \x7b " ++ inner ++ " \x7d") :: tail)
      | v =>
        if jsTypeof v = "object" then do
          let args ← getProp v "_args"
          let argsString :=
            if truthy args && (jsTypeof args = "object") then
              let argParts := (objEntries args).map (fun p => p.1 ++ ": " ++ jsToString p.2)
              if argParts.length > 0 then
                "(" ++ String.intercalate ", " argParts ++ ")"
              else ""
            else ""
          let inner ← buildGraphQLQuery v
          let tail ← buildArrayFields (i + 1) rest
          .ok ((key ++ argsString ++ " \x7b " ++ inner ++ " \x7d") :: tail)
        else
          buildArrayFields (i + 1) rest
end

/-- Compiled composite validators: the opaque leaf, `z.array` and
`z.object`. -/
inductive ZodSchema where
  | leafSchema (leaf : ZodLeaf)
  | arraySchema (elem : ZodSchema)
  | objectSchema (fields : List (String × ZodSchema))

mutual
/-- `createZodSchemaFromShape` (src/unnamed/part_000, lines 186 to 215):
walk the shape and produce a `z.object` over the compiled entries;
Object.entries throws on null and undefined; numbers and booleans have
no entries so give an empty record validator; a non-empty string has
indexed character entries whose first character immediately fails the
type switch.  The own entries of a validator handle are not modelled
(no claim reaches that case). -/
def createZodSchemaFromShape : JSValue → Except String ZodSchema
  | .obj fs => (czsFields fs).map ZodSchema.objectSchema
  | .arr es => (czsArrayFields 0 es).map ZodSchema.objectSchema
  | .jnull => .error "TypeError: cannot convert null to object"
  | .undefined => .error "TypeError: cannot convert undefined to object"
  | .str s =>
    match s.data with
    | [] => .ok (ZodSchema.objectSchema [])
    | _ => .error "unexpected type <string> in query shape key [0]"
  | _ => .ok (ZodSchema.objectSchema [])

/-- Loop body of `createZodSchemaFromShape` over the entry list, in
source order: skip `_args`; keep a zod value unchanged; wrap the
compiled first element of a non-empty array in `z.array`; recurse into
any other value of typeof object; reject every remaining value with an
error naming the typeof and the key. -/
def czsFields : List (String × JSValue) → Except String (List (String × ZodSchema))
  | [] => .ok []
  | (key, value) :: rest =>
    if key = "_args" then
      czsFields rest
    else
      match value with
      | .zod leaf => do
          let tail ← czsFields rest
          .ok ((key, ZodSchema.leafSchema leaf) :: tail)
      | .arr (first :: _) => do
          let itemSchema ← createZodSchemaFromShape first
          let tail ← czsFields rest
          .ok ((key, ZodSchema.arraySchema itemSchema) :: tail)
      | v =>
        if jsTypeof v = "object" then do
          let nested ← createZodSchemaFromShape v
          let tail ← czsFields rest
          .ok ((key, nested) :: tail)
        else
          .error ("unexpected type <" ++ jsTypeof v ++ "> in query shape key [" ++ key ++ "]")

/-- Same loop body applied to an array, whose Object.entries keys are
the decimal indices. -/
def czsArrayFields (i : Nat) : List JSValue → Except String (List (String × ZodSchema))
  | [] => .ok []
  | value :: rest =>
    let key := toString i
    if key = "_args" then
      czsArrayFields (i + 1) rest
    else
      match value with
      | .zod leaf => do
          let tail ← czsArrayFields (i + 1) rest
          .ok ((key, ZodSchema.leafSchema leaf) :: tail)
      | .arr (first :: _) => do
          let itemSchema ← createZodSchemaFromShape first
          let tail ← czsArrayFields (i + 1) rest
          .ok ((key, ZodSchema.arraySchema itemSchema) :: tail)
      | v =>
        if jsTypeof v = "object" then do
          let nested ← createZodSchemaFromShape v
          let tail ← czsArrayFields (i + 1) rest
          .ok ((key, nested) :: tail)
        else
          .error ("unexpected type <" ++ jsTypeof v ++ "> in query shape key [" ++ key ++ "]")
end

/-- The Query value object: target address, compiled query text and the
optional compiled validator. -/
structure Query where
  url : String
  query : String
  schema : Option ZodSchema

/-- `Query.fromString`: literal construction mode, compilers bypassed. -/
def Query.fromString (url queryString : String) (schema : Option ZodSchema) : Query :=
  ⟨url, queryString, schema⟩

/-- One entry of the variable list of `Query.typed`: the template
`$name:Type` where the type name is read back from the WeakMap
annotation, and `t.name() ?? throws(...)` raises the construction error
when the annotation is absent. -/
def renderVariable (p : String × ZodLeaf) : Except String String :=
  match p.2.tyName with
  | some n => .ok ("$" ++ p.1 ++ ":" ++ n)
  | none => .error ("variable " ++ p.1 ++ " type not named")

/-- `Query.typed` (src/unnamed/part_000, lines 40 to 66): render the
variable list from the construction-time Variable Set when it is
non-empty, failing via `throws` when a variable type has no name
annotation; then wrap the compiled shape in the operation header and
compile the validator. -/
def Query.typed (url name : String) (vars : List (String × ZodLeaf))
    (query : JSValue) : Except String Query := do
  let argsString ←
    if vars.length > 0 then do
      let parts ← vars.mapM renderVariable
      Except.ok ("(" ++ String.intercalate "," parts ++ ")")
    else
      Except.ok ""
  let body ← buildGraphQLQuery query
  let schema ← createZodSchemaFromShape query
  Except.ok ⟨url, "query " ++ name ++ argsString ++ " \x7b" ++ body ++ "\x7d", some schema⟩

/-- One location entry of `createGraphQLError` (errors.ts, lines 29 to
31): property reads on a null or undefined location throw. -/
def formatLocations : List JSValue → Except String (List String)
  | [] => .ok []
  | loc :: rest =>
    if isNullish loc then
      .error "TypeError: cannot read properties of a nullish location"
    else do
      let tail ← formatLocations rest
      .ok (("[line: " ++ jsToString (getPropD loc "line") ++ ", column: "
            ++ jsToString (getPropD loc "column") ++ "]") :: tail)

/-- Element rendering of Array.prototype.join: null and undefined join
as empty strings. -/
def jsJoinElem (v : JSValue) : String :=
  if isNullish v then "" else jsToString v

/-- One error block of `createGraphQLError` (errors.ts, lines 24 to 41):
the message line, then the location list when the `locations` property
is truthy with positive length, then the dot-joined path when the `path`
property is truthy with positive length.  Only arrays support `.map`
and `.join`; a truthy non-array with positive length throws. -/
def formatOneError (e : JSValue) : Except String String :=
  if isNullish e then
    .error "TypeError: cannot read properties of a nullish error entry"
  else do
    let message := "GraphQL Error: " ++ jsToString (getPropD e "message")
    let locs := getPropD e "locations"
    let message ←
      if truthy locs && jsGtZero (getPropD locs "length") then
        match locs with
        | .arr ls => do
            let parts ← formatLocations ls
            Except.ok (message ++ "\nLocation: " ++ String.intercalate ", " parts)
        | _ => .error "TypeError: locations.map is not a function"
      else
        Except.ok message
    let path := getPropD e "path"
    if truthy path && jsGtZero (getPropD path "length") then
      match path with
      | .arr ps => .ok (message ++ "\nPath: " ++ String.intercalate "." (ps.map jsJoinElem))
      | _ => .error "TypeError: path.join is not a function"
    else
      .ok message

/-- The blocks of all errors, in order. -/
def formatBlocks : List JSValue → Except String (List String)
  | [] => .ok []
  | e :: rest => do
    let b ← formatOneError e
    let tail ← formatBlocks rest
    .ok (b :: tail)

/-- `createGraphQLError` (errors.ts, lines 9 to 51): null when the
`errors` property is absent, falsy, not an array, or empty; otherwise
the Error with the blank-line-joined blocks as message and the original
error list attached as `graphqlErrors`. -/
def createGraphQLError (respObj : JSValue) : Except String (Option (String × JSValue)) := do
  let hasErrors ← jsIn "errors" respObj
  if !hasErrors then
    .ok none
  else
    let errs := getPropD respObj "errors"
    if !truthy errs then
      .ok none
    else
      match errs with
      | .arr es =>
        if es.length = 0 then
          .ok none
        else do
          let blocks ← formatBlocks es
          .ok (some (String.intercalate "\n\n" blocks, .arr es))
      | _ => .ok none

/-- Model of zod default parsing for the compiled validators: a leaf
accepts what the opaque collaborator accepts and returns the value; an
array validator requires an array and parses every element; an object
validator requires a plain object and parses every declared field
(reading absent fields as undefined, ignoring unknown keys). -/
def safeParse (acc : ZodLeaf → JSValue → Bool) : ZodSchema → JSValue → Option JSValue
  | .leafSchema l, v => if acc l v then some v else none
  | .arraySchema s, .arr es => (es.mapM (fun e => safeParse acc s e)).map JSValue.arr
  | .arraySchema _, _ => none
  | .objectSchema fields, .obj fs =>
    (fields.attach.mapM (fun p =>
      (safeParse acc p.1.2 ((List.lookup p.1.1 fs).getD JSValue.undefined)).map
        (fun r => (p.1.1, r)))).map JSValue.obj
  | .objectSchema _, _ => none
termination_by s _ => sizeOf s
decreasing_by
  · simp only [ZodSchema.arraySchema.sizeOf_spec]; omega
  · have h := List.sizeOf_lt_sizeOf_of_mem p.2
    simp only [ZodSchema.objectSchema.sizeOf_spec]
    have : sizeOf p.1.2 < sizeOf p.1 := by
      obtain ⟨a, b⟩ := p.1
      simp only [Prod.mk.sizeOf_spec]
      omega
    omega

/-- Outcome of the response-classification part of `execute`.  The
validation-failure message wraps the diagnostic of the external
validation library, which is not modelled. -/
inductive ExecOutcome where
  | success (data : JSValue)
  | validationFailure
  | protocolError (message : String) (graphqlErrors : JSValue)
  | thrownNull
  | thrownTypeError (msg : String)

/-- Whether an outcome is the structured GraphQL protocol failure. -/
def isProtocolError : ExecOutcome → Bool
  | .protocolError _ _ => true
  | _ => false

/-- Response classification of `Query.execute` (src/unnamed/part_000,
lines 114 to 129), applied to the parsed JSON body after a successful
transport exchange: when the envelope has a truthy `data` property the
data is validated against the stored schema (or returned unchanged when
no schema is stored); otherwise the result of `createGraphQLError` is
thrown, which is null when the envelope carries no non-empty error
list. -/
def executeResponse (acc : ZodLeaf → JSValue → Bool) (schema : Option ZodSchema)
    (respObj : JSValue) : ExecOutcome :=
  match jsIn "data" respObj with
  | .error m => .thrownTypeError m
  | .ok hasData =>
    let dataVal := getPropD respObj "data"
    if hasData && truthy dataVal then
      match schema with
      | some s =>
        match safeParse acc s dataVal with
        | some d => .success d
        | none => .validationFailure
      | none => .success dataVal
    else
      match createGraphQLError respObj with
      | .error m => .thrownTypeError m
      | .ok none => .thrownNull
      | .ok (some (msg, errs)) => .protocolError msg errs

/-- A value is a string. -/
def isStrVal : JSValue → Bool
  | .str _ => true
  | _ => false

/-- An argument map: a plain object whose values are literal or
reference strings (spec, section 3, Object node). -/
def isArgsMap : JSValue → Bool
  | .obj fs => fs.all (fun p => isStrVal p.2)
  | _ => false

mutual
/-- Well-formed Shape Tree node (spec, section 3): a node is exactly one
of Leaf, Object node, or single-element Array node; Array-node templates
are taken to be Object nodes, which is the only template form whose
compilation does not depend on the unmodelled internals of the opaque
validator handles and matches every example in the spec. -/
def isWFNode : JSValue → Bool
  | .zod _ => true
  | .arr [JSValue.obj fs] => isWFFields fs
  | .obj fs => isWFFields fs
  | _ => false

/-- Well-formed Object-node entry list: the reserved `_args` key maps to
an argument map, every other key maps to a well-formed child node. -/
def isWFFields : List (String × JSValue) → Bool
  | [] => true
  | (k, v) :: rest =>
    (if k = "_args" then isArgsMap v else isWFNode v) && isWFFields rest
end

mutual
/-- No `_args` key occurs anywhere in the tree. -/
def noArgsNode : JSValue → Bool
  | .obj fs => noArgsFields fs
  | .arr es => noArgsList es
  | _ => true

/-- No `_args` key occurs in the entry list or below it. -/
def noArgsFields : List (String × JSValue) → Bool
  | [] => true
  | (k, v) :: rest => !(k == "_args") && noArgsNode v && noArgsFields rest

/-- No `_args` key occurs in any list element. -/
def noArgsList : List JSValue → Bool
  | [] => true
  | v :: rest => noArgsNode v && noArgsList rest
end

mutual
/-- Validator mirror written from the spec (sections 3 and 4.2): a
composite validator isomorphic to the Shape Tree with `_args` keys
removed — leaves kept unchanged, single-element array nodes becoming
element validators over the compiled template, object nodes becoming
record validators over the non-`_args` children. -/
def specVNode : JSValue → ZodSchema
  | .zod l => .leafSchema l
  | .arr (t :: _) => .arraySchema (specVNode t)
  | .obj fs => .objectSchema (specVFields fs)
  | _ => .objectSchema []

/-- Field part of the validator mirror: drop `_args`, compile the other
children in insertion order. -/
def specVFields : List (String × JSValue) → List (String × ZodSchema)
  | [] => []
  | (k, v) :: rest =>
    if k = "_args" then specVFields rest
    else (k, specVNode v) :: specVFields rest
end

mutual
/-- Field text mirror written from the spec (section 4.1), for trees
without `_args`: a Leaf child emits its name, an Array-node child emits
the name and the compiled selection set of the template, an Object-node
child emits the name and the compiled selection set of its children. -/
def specFieldText : String × JSValue → String
  | (k, JSValue.zod _) => k
  | (k, JSValue.arr (t :: _)) => k ++ " \x7b " ++ specSelText t ++ " \x7d"
  | (k, v) => k ++ " \x7b " ++ specSelText v ++ " \x7d"

/-- Selection-set mirror: sibling fields joined by single spaces in the
insertion order of the mapping. -/
def specSelText : JSValue → String
  | .obj fs => String.intercalate " " (specFieldList fs)
  | _ => ""

/-- Sibling field texts in insertion order. -/
def specFieldList : List (String × JSValue) → List String
  | [] => []
  | p :: rest => specFieldText p :: specFieldList rest
end

/-- Location text mirror written from the spec (section 4.4, step 4):
one line-and-column pair. -/
def specLocText (loc : JSValue) : String :=
  "[line: " ++ jsToString (getPropD loc "line") ++ ", column: "
    ++ jsToString (getPropD loc "column") ++ "]"

/-- Error block mirror written from the spec (section 4.4, step 4): the
message prefixed with GraphQL Error, the optional location list, the
optional dot-joined path. -/
def specErrorBlock (e : JSValue) : String :=
  "GraphQL Error: " ++ jsToString (getPropD e "message")
    ++ (match getPropD e "locations" with
        | .arr (l :: ls) => "\nLocation: " ++ String.intercalate ", " ((l :: ls).map specLocText)
        | _ => "")
    ++ (match getPropD e "path" with
        | .arr (p :: ps) => "\nPath: " ++ String.intercalate "." ((p :: ps).map jsToString)
        | _ => "")

/-- Well-formed structured error entry, as the spec data model has them:
a plain object whose optional `locations` property is an array of
non-nullish location objects and whose optional `path` property is an
array of field-name strings (absent properties and JSON null are treated
as absent). -/
def wfError : JSValue → Bool
  | .obj fs =>
    (match List.lookup "locations" fs with
     | none => true
     | some JSValue.jnull => true
     | some (JSValue.arr ls) => ls.all (fun l => !(isNullish l))
     | some _ => false) &&
    (match List.lookup "path" fs with
     | none => true
     | some JSValue.jnull => true
     | some (JSValue.arr ps) => ps.all isStrVal
     | some _ => false)
  | _ => false

/-- The envelope carries no usable error list: the `errors` property is
missing, not an array, or an empty array. -/
def lacksErrors (fs : List (String × JSValue)) : Bool :=
  match List.lookup "errors" fs with
  | some (JSValue.arr (_ :: _)) => false
  | _ => true

/-- Observation helper: the schema stored for a field of a record
validator. -/
def fieldSchema : ZodSchema → String → Option ZodSchema
  | .objectSchema fs, k => List.lookup k fs
  | _, _ => none

/-- Observation helper: how many array layers a validator requires
before reaching a non-array validator. -/
def arrayDepth : ZodSchema → Nat
  | .arraySchema s => arrayDepth s + 1
  | _ => 0

/-! Helper lemmas shared by the claim theorems. -/

theorem specFieldList_eq_map (l : List (String × JSValue)) :
    specFieldList l = l.map specFieldText := by
  induction l with
  | nil => rfl
  | cons p rest ih => simp [specFieldList, ih]

theorem buildFields_args_skip (v : JSValue) (rest : List (String × JSValue)) :
    buildFields (("_args", v) :: rest) = buildFields rest := by
  simp [buildFields]

theorem czsFields_args_skip (v : JSValue) (rest : List (String × JSValue)) :
    czsFields (("_args", v) :: rest) = czsFields rest := by
  simp [czsFields]

theorem any_key_eq_lookup_isSome (k : String) (fs : List (String × JSValue)) :
    fs.any (fun p => p.1 == k) = (List.lookup k fs).isSome := by
  induction fs with
  | nil => rfl
  | cons p rest ih =>
    obtain ⟨a, b⟩ := p
    by_cases h : a = k
    · subst h; simp [List.lookup]
    · have h2 : (k == a) = false := beq_eq_false_iff_ne.mpr (fun hh => h hh.symm)
      have h3 : (a == k) = false := beq_eq_false_iff_ne.mpr h
      simp [List.lookup, h2, h3, ih]

theorem lookup_eq_none_of_not_mem_keys (k : String) (fs : List (String × JSValue))
    (h : k ∉ fs.map Prod.fst) : List.lookup k fs = none := by
  induction fs with
  | nil => rfl
  | cons p rest ih =>
    obtain ⟨a, b⟩ := p
    simp only [List.map, List.mem_cons] at h
    push_neg at h
    have h2 : (k == a) = false := beq_eq_false_iff_ne.mpr h.1
    simp [List.lookup, h2, ih h.2]

theorem lookup_args_of_noArgs (fs : List (String × JSValue))
    (h : noArgsFields fs = true) : List.lookup "_args" fs = none := by
  induction fs with
  | nil => rfl
  | cons p rest ih =>
    obtain ⟨a, b⟩ := p
    simp only [noArgsFields, Bool.and_eq_true, bne_iff_ne, Bool.not_eq_true'] at h
    have ha : ("_args" == a) = false := by
      rcases h with ⟨⟨h1, _⟩, _⟩
      rcases Bool.eq_false_iff.mp h1 with h1'
      exact beq_eq_false_iff_ne.mpr (fun hh => h1' (by rw [hh]; exact beq_self_eq_true a))
    simp [List.lookup, ha, ih h.2]

theorem mapM_renderVariable_ok (vars : List (String × ZodLeaf))
    (h : vars.all (fun p => p.2.tyName.isSome) = true) :
    List.mapM renderVariable vars
      = .ok (vars.map (fun p => "$" ++ p.1 ++ ":" ++ p.2.tyName.getD "")) := by
  induction vars with
  | nil => rfl
  | cons p rest ih =>
    simp only [List.all_cons, Bool.and_eq_true] at h
    obtain ⟨n, hn⟩ := Option.isSome_iff_exists.mp h.1
    rw [List.mapM_cons, renderVariable, hn, ih h.2]
    simp [hn, Bind.bind, Except.bind, Pure.pure, Except.pure]

theorem mapM_renderVariable_error (v : String) (i : Nat)
    (pre post : List (String × ZodLeaf))
    (h : pre.all (fun p => p.2.tyName.isSome) = true) :
    List.mapM renderVariable (pre ++ (v, ⟨i, none⟩) :: post)
      = .error ("variable " ++ v ++ " type not named") := by
  induction pre with
  | nil =>
    rw [List.nil_append, List.mapM_cons, renderVariable]
    rfl
  | cons p rest ih =>
    simp only [List.all_cons, Bool.and_eq_true] at h
    obtain ⟨n, hn⟩ := Option.isSome_iff_exists.mp h.1
    rw [List.cons_append, List.mapM_cons, renderVariable, hn, ih h.2]
    rfl

theorem formatLocations_wf (ls : List JSValue)
    (h : ls.all (fun l => !(isNullish l)) = true) :
    formatLocations ls = .ok (ls.map specLocText) := by
  induction ls with
  | nil => rfl
  | cons l rest ih =>
    simp only [List.all_cons, Bool.and_eq_true, Bool.not_eq_true'] at h
    rw [formatLocations, if_neg (by simp [h.1]), ih h.2]
    rfl

theorem map_jsJoinElem_of_all_str (ps : List JSValue) (h : ps.all isStrVal = true) :
    ps.map jsJoinElem = ps.map jsToString := by
  refine List.map_congr_left (fun a ha => ?_)
  have := List.all_eq_true.mp h a ha
  match a with
  | .str s => rfl
  | .zod _ | .arr _ | .obj _ | .num _ | .bool _ | .jnull | .undefined => simp [isStrVal] at this

theorem formatOneError_wf (e : JSValue) (h : wfError e = true) :
    formatOneError e = .ok (specErrorBlock e) := by
  match e with
  | .obj fs =>
    simp only [wfError, Bool.and_eq_true] at h
    obtain ⟨hloc, hpath⟩ := h
    rcases hL : List.lookup "locations" fs with _ | vL <;> rw [hL] at hloc
    · rcases hP : List.lookup "path" fs with _ | vP <;> rw [hP] at hpath
      · simp [formatOneError, specErrorBlock, isNullish, getPropD, hL, hP, truthy,
          jsGtZero, Bind.bind, Except.bind, String.append_assoc, String.append_empty]
      · match vP with
        | .jnull =>
          simp [formatOneError, specErrorBlock, isNullish, getPropD, hL, hP, truthy,
            jsGtZero, Bind.bind, Except.bind, String.append_assoc, String.append_empty]
        | .arr [] =>
          simp [formatOneError, specErrorBlock, isNullish, getPropD, hL, hP, truthy,
            jsGtZero, Bind.bind, Except.bind, String.append_assoc, String.append_empty]
        | .arr (p :: ps) =>
          replace hpath : (p :: ps).all isStrVal = true := hpath
          simp [formatOneError, specErrorBlock, isNullish, getPropD, hL, hP, truthy,
            jsGtZero, Bind.bind, Except.bind, String.append_assoc, String.append_empty,
            map_jsJoinElem_of_all_str _ hpath]
        | .zod _ | .obj _ | .str _ | .num _ | .bool _ | .undefined => exact Bool.noConfusion hpath
    · match vL with
      | .jnull =>
        rcases hP : List.lookup "path" fs with _ | vP <;> rw [hP] at hpath
        · simp [formatOneError, specErrorBlock, isNullish, getPropD, hL, hP, truthy,
            jsGtZero, Bind.bind, Except.bind, String.append_assoc, String.append_empty]
        · match vP with
          | .jnull =>
            simp [formatOneError, specErrorBlock, isNullish, getPropD, hL, hP, truthy,
              jsGtZero, Bind.bind, Except.bind, String.append_assoc, String.append_empty]
          | .arr [] =>
            simp [formatOneError, specErrorBlock, isNullish, getPropD, hL, hP, truthy,
              jsGtZero, Bind.bind, Except.bind, String.append_assoc, String.append_empty]
          | .arr (p :: ps) =>
            replace hpath : (p :: ps).all isStrVal = true := hpath
            simp [formatOneError, specErrorBlock, isNullish, getPropD, hL, hP, truthy,
              jsGtZero, Bind.bind, Except.bind, String.append_assoc, String.append_empty,
              map_jsJoinElem_of_all_str _ hpath]
          | .zod _ | .obj _ | .str _ | .num _ | .bool _ | .undefined => exact Bool.noConfusion hpath
      | .arr [] =>
        rcases hP : List.lookup "path" fs with _ | vP <;> rw [hP] at hpath
        · simp [formatOneError, specErrorBlock, isNullish, getPropD, hL, hP, truthy,
            jsGtZero, Bind.bind, Except.bind, String.append_assoc, String.append_empty]
        · match vP with
          | .jnull =>
            simp [formatOneError, specErrorBlock, isNullish, getPropD, hL, hP, truthy,
              jsGtZero, Bind.bind, Except.bind, String.append_assoc, String.append_empty]
          | .arr [] =>
            simp [formatOneError, specErrorBlock, isNullish, getPropD, hL, hP, truthy,
              jsGtZero, Bind.bind, Except.bind, String.append_assoc, String.append_empty]
          | .arr (p :: ps) =>
            replace hpath : (p :: ps).all isStrVal = true := hpath
            simp [formatOneError, specErrorBlock, isNullish, getPropD, hL, hP, truthy,
              jsGtZero, Bind.bind, Except.bind, String.append_assoc, String.append_empty,
              map_jsJoinElem_of_all_str _ hpath]
          | .zod _ | .obj _ | .str _ | .num _ | .bool _ | .undefined => exact Bool.noConfusion hpath
      | .arr (l :: ls) =>
        replace hloc : (l :: ls).all (fun x => !(isNullish x)) = true := hloc
        rcases hP : List.lookup "path" fs with _ | vP <;> rw [hP] at hpath
        · simp [formatOneError, specErrorBlock, isNullish, getPropD, hL, hP, truthy,
            jsGtZero, Bind.bind, Except.bind, String.append_assoc, String.append_empty,
            formatLocations_wf _ hloc]
        · match vP with
          | .jnull =>
            simp [formatOneError, specErrorBlock, isNullish, getPropD, hL, hP, truthy,
              jsGtZero, Bind.bind, Except.bind, String.append_assoc, String.append_empty,
              formatLocations_wf _ hloc]
          | .arr [] =>
            simp [formatOneError, specErrorBlock, isNullish, getPropD, hL, hP, truthy,
              jsGtZero, Bind.bind, Except.bind, String.append_assoc, String.append_empty,
              formatLocations_wf _ hloc]
          | .arr (p :: ps) =>
            replace hpath : (p :: ps).all isStrVal = true := hpath
            simp [formatOneError, specErrorBlock, isNullish, getPropD, hL, hP, truthy,
              jsGtZero, Bind.bind, Except.bind, String.append_assoc, String.append_empty,
              formatLocations_wf _ hloc, map_jsJoinElem_of_all_str _ hpath]
          | .zod _ | .obj _ | .str _ | .num _ | .bool _ | .undefined => exact Bool.noConfusion hpath
      | .zod _ | .obj _ | .str _ | .num _ | .bool _ | .undefined => exact Bool.noConfusion hloc
  | .zod _ => simp [wfError] at h
  | .arr _ => simp [wfError] at h
  | .str _ => simp [wfError] at h
  | .num _ => simp [wfError] at h
  | .bool _ => simp [wfError] at h
  | .jnull => simp [wfError] at h
  | .undefined => simp [wfError] at h

theorem formatBlocks_wf (es : List JSValue) (h : es.all wfError = true) :
    formatBlocks es = .ok (es.map specErrorBlock) := by
  induction es with
  | nil => rfl
  | cons e rest ih =>
    simp only [List.all_cons, Bool.and_eq_true] at h
    rw [formatBlocks, formatOneError_wf e h.1, ih h.2]
    rfl

theorem safeParse_list_isSome (acc : ZodLeaf → JSValue → Bool) (t : ZodSchema)
    (es : List JSValue) :
    (es.mapM (fun e => safeParse acc t e)).isSome
      = es.all (fun e => (safeParse acc t e).isSome) := by
  induction es with
  | nil => rfl
  | cons e rest ih =>
    rw [List.mapM_cons, List.all_cons, ← ih]
    cases he : safeParse acc t e with
    | none => rfl
    | some r =>
      cases hr : rest.mapM (fun e => safeParse acc t e) with
      | none => rfl
      | some rs => rfl

theorem buildFields_leaf_append (pre : List (String × JSValue)) (k : String) (v : JSValue)
    (hpre : pre.all (fun p => !(p.1 == "_args") && isZodSchema p.2) = true)
    (hv : ¬ jsTypeof v = "object") :
    buildFields (pre ++ [(k, v)]) = .ok (pre.map Prod.fst) := by
  induction pre with
  | nil =>
    rw [List.nil_append]
    by_cases hk : k = "_args"
    · rw [hk, buildFields_args_skip]
      rfl
    · match v with
      | .zod _ => simp [jsTypeof] at hv
      | .arr _ => simp [jsTypeof] at hv
      | .obj _ => simp [jsTypeof] at hv
      | .jnull => simp [jsTypeof] at hv
      | .str s => simp [buildFields, hk, isZodSchema, jsTypeof]
      | .num n => simp [buildFields, hk, isZodSchema, jsTypeof]
      | .bool b => simp [buildFields, hk, isZodSchema, jsTypeof]
      | .undefined => simp [buildFields, hk, isZodSchema, jsTypeof]
  | cons p rest ih =>
    obtain ⟨a, b⟩ := p
    simp only [List.all_cons, Bool.and_eq_true, Bool.not_eq_true'] at hpre
    obtain ⟨⟨ha, hb⟩, hrest⟩ := hpre
    have ha2 : ¬ a = "_args" := fun hh => by rw [hh] at ha; exact Bool.noConfusion ha
    match b, hb with
    | .zod leaf, _ =>
      rw [List.cons_append]
      simp only [buildFields, if_neg ha2, isZodSchema, if_true]
      rw [ih hrest]
      rfl

theorem czsFields_leaf_append_error (pre : List (String × JSValue)) (k : String) (v : JSValue)
    (hpre : pre.all (fun p => !(p.1 == "_args") && isZodSchema p.2) = true)
    (hk : ¬ k = "_args") (hv : ¬ jsTypeof v = "object") :
    czsFields (pre ++ [(k, v)])
      = .error ("unexpected type <" ++ jsTypeof v ++ "> in query shape key [" ++ k ++ "]") := by
  induction pre with
  | nil =>
    rw [List.nil_append]
    match v with
    | .zod _ => simp [jsTypeof] at hv
    | .arr _ => simp [jsTypeof] at hv
    | .obj _ => simp [jsTypeof] at hv
    | .jnull => simp [jsTypeof] at hv
    | .str s => simp [czsFields, hk, jsTypeof]
    | .num n => simp [czsFields, hk, jsTypeof]
    | .bool b => simp [czsFields, hk, jsTypeof]
    | .undefined => simp [czsFields, hk, jsTypeof]
  | cons p rest ih =>
    obtain ⟨a, b⟩ := p
    simp only [List.all_cons, Bool.and_eq_true, Bool.not_eq_true'] at hpre
    obtain ⟨⟨ha, hb⟩, hrest⟩ := hpre
    have ha2 : ¬ a = "_args" := fun hh => by rw [hh] at ha; exact Bool.noConfusion ha
    match b, hb with
    | .zod leaf, _ =>
      rw [List.cons_append]
      simp only [czsFields, if_neg ha2]
      rw [ih hrest]
      rfl

theorem czsFields_cons_zod (k : String) (leaf : ZodLeaf) (rest : List (String × JSValue))
    (hk : ¬ k = "_args") :
    czsFields ((k, JSValue.zod leaf) :: rest) = (do
      let tail ← czsFields rest
      Except.ok ((k, ZodSchema.leafSchema leaf) :: tail)) := by
  simp only [czsFields, if_neg hk]

theorem czsFields_cons_arr (k : String) (first : JSValue) (more : List JSValue)
    (rest : List (String × JSValue)) (hk : ¬ k = "_args") :
    czsFields ((k, JSValue.arr (first :: more)) :: rest) = (do
      let itemSchema ← createZodSchemaFromShape first
      let tail ← czsFields rest
      Except.ok ((k, ZodSchema.arraySchema itemSchema) :: tail)) := by
  simp only [czsFields, if_neg hk]

theorem czsFields_cons_obj (k : String) (gs : List (String × JSValue))
    (rest : List (String × JSValue)) (hk : ¬ k = "_args") :
    czsFields ((k, JSValue.obj gs) :: rest) = (do
      let nested ← createZodSchemaFromShape (JSValue.obj gs)
      let tail ← czsFields rest
      Except.ok ((k, nested) :: tail)) := by
  simp only [czsFields, if_neg hk]
  rfl

theorem czsFields_spec (fs : List (String × JSValue)) (hwf : isWFFields fs = true) :
    czsFields fs = Except.ok (specVFields fs) := by
  suffices main : ∀ (n : Nat) (fs : List (String × JSValue)), sizeOf fs ≤ n →
      isWFFields fs = true → czsFields fs = Except.ok (specVFields fs) from
    main (sizeOf fs) fs le_rfl hwf
  intro n
  induction n with
  | zero =>
    intro fs hsz _
    match fs with
    | [] => rfl
    | p :: rest => simp only [List.cons.sizeOf_spec] at hsz; omega
  | succ n ih =>
    intro fs hsz hwf
    match fs with
    | [] => rfl
    | (k, v) :: rest =>
      simp only [List.cons.sizeOf_spec, Prod.mk.sizeOf_spec] at hsz
      simp only [isWFFields, Bool.and_eq_true] at hwf
      obtain ⟨h1, h2⟩ := hwf
      by_cases hk : k = "_args"
      · subst hk
        rw [czsFields_args_skip]
        rw [show specVFields (("_args", v) :: rest) = specVFields rest from by
          simp [specVFields]]
        exact ih rest (by omega) h2
      · rw [if_neg hk] at h1
        match v, h1 with
        | .zod leaf, _ =>
          rw [czsFields_cons_zod k leaf rest hk,
            ih rest (by omega) h2]
          simp [specVFields, specVNode, hk, Bind.bind, Except.bind]
        | .arr [JSValue.obj gs], h1 =>
          have hgs : isWFFields gs = true := h1
          have hsz2 : sizeOf gs ≤ n := by
            simp only [JSValue.arr.sizeOf_spec, List.cons.sizeOf_spec,
              JSValue.obj.sizeOf_spec, List.nil.sizeOf_spec] at hsz
            omega
          rw [czsFields_cons_arr k (JSValue.obj gs) [] rest hk]
          rw [show createZodSchemaFromShape (JSValue.obj gs)
              = (czsFields gs).map ZodSchema.objectSchema from rfl]
          rw [ih gs hsz2 hgs, ih rest (by omega) h2]
          simp [specVFields, specVNode, hk, Bind.bind, Except.bind, Except.map]
        | .obj gs, h1 =>
          have hgs : isWFFields gs = true := h1
          have hsz2 : sizeOf gs ≤ n := by
            simp only [JSValue.obj.sizeOf_spec] at hsz
            omega
          rw [czsFields_cons_obj k gs rest hk]
          rw [show createZodSchemaFromShape (JSValue.obj gs)
              = (czsFields gs).map ZodSchema.objectSchema from rfl]
          rw [ih gs hsz2 hgs, ih rest (by omega) h2]
          simp [specVFields, specVNode, hk, Bind.bind, Except.bind, Except.map]

theorem buildFields_cons_zod (k : String) (leaf : ZodLeaf) (rest : List (String × JSValue))
    (hk : ¬ k = "_args") :
    buildFields ((k, JSValue.zod leaf) :: rest) = (do
      let tail ← buildFields rest
      Except.ok (k :: tail)) := by
  simp only [buildFields, if_neg hk, isZodSchema, if_true]

theorem buildFields_cons_arr (k : String) (first : JSValue) (more : List JSValue)
    (rest : List (String × JSValue)) (hk : ¬ k = "_args") :
    buildFields ((k, JSValue.arr (first :: more)) :: rest) = (do
      let inner ← buildGraphQLQuery first
      let tail ← buildFields rest
      Except.ok ((k ++ " \x7b " ++ inner ++ " \x7d") :: tail)) := by
  simp only [buildFields, if_neg hk]
  rfl

theorem buildFields_cons_obj_noargs (k : String) (gs rest : List (String × JSValue))
    (hk : ¬ k = "_args") (hna : List.lookup "_args" gs = none) :
    buildFields ((k, JSValue.obj gs) :: rest) = (do
      let inner ← buildGraphQLQuery (JSValue.obj gs)
      let tail ← buildFields rest
      Except.ok ((k ++ " \x7b " ++ inner ++ " \x7d") :: tail)) := by
  simp only [buildFields, if_neg hk]
  rw [show getProp (JSValue.obj gs) "_args" = Except.ok JSValue.undefined from by
    simp [getProp, getPropD, hna]]
  simp [truthy, isZodSchema, jsTypeof, Bind.bind, Except.bind, String.append_empty]

theorem noArgsFields_parts (k : String) (v : JSValue) (rest : List (String × JSValue))
    (h : noArgsFields ((k, v) :: rest) = true) :
    ¬ k = "_args" ∧ noArgsNode v = true ∧ noArgsFields rest = true := by
  simp only [noArgsFields, Bool.and_eq_true, bne_iff_ne, ne_eq] at h
  obtain ⟨⟨h1, h2⟩, h3⟩ := h
  refine ⟨?_, h2, h3⟩
  intro hh
  rw [hh] at h1
  simp at h1

theorem buildFields_noargs_spec (fs : List (String × JSValue))
    (hwf : isWFFields fs = true) (hna : noArgsFields fs = true) :
    buildFields fs = Except.ok (fs.map specFieldText) := by
  suffices main : ∀ (n : Nat) (fs : List (String × JSValue)), sizeOf fs ≤ n →
      isWFFields fs = true → noArgsFields fs = true →
      buildFields fs = Except.ok (fs.map specFieldText) from
    main (sizeOf fs) fs le_rfl hwf hna
  intro n
  induction n with
  | zero =>
    intro fs hsz _ _
    match fs with
    | [] => rfl
    | p :: rest => simp only [List.cons.sizeOf_spec] at hsz; omega
  | succ n ih =>
    intro fs hsz hwf hna
    match fs with
    | [] => rfl
    | (k, v) :: rest =>
      simp only [List.cons.sizeOf_spec, Prod.mk.sizeOf_spec] at hsz
      obtain ⟨hk, hnav, hnarest⟩ := noArgsFields_parts k v rest hna
      simp only [isWFFields, Bool.and_eq_true, if_neg hk] at hwf
      obtain ⟨h1, h2⟩ := hwf
      match v, h1, hnav with
      | .zod leaf, _, _ =>
        rw [buildFields_cons_zod k leaf rest hk, ih rest (by omega) h2 hnarest]
        simp [specFieldText, Bind.bind, Except.bind]
      | .arr [JSValue.obj gs], h1, hnav =>
        have hgs : isWFFields gs = true := h1
        have hnags : noArgsFields gs = true := by
          simp only [noArgsNode, noArgsList, Bool.and_eq_true] at hnav
          exact hnav.1
        have hsz2 : sizeOf gs ≤ n := by
          simp only [JSValue.arr.sizeOf_spec, List.cons.sizeOf_spec,
            JSValue.obj.sizeOf_spec, List.nil.sizeOf_spec] at hsz
          omega
        rw [buildFields_cons_arr k (JSValue.obj gs) [] rest hk]
        rw [show buildGraphQLQuery (JSValue.obj gs)
            = (buildFields gs).map (String.intercalate " ") from rfl]
        rw [ih gs hsz2 hgs hnags, ih rest (by omega) h2 hnarest]
        simp only [List.map_cons, specFieldText, specSelText, specFieldList_eq_map,
          Bind.bind, Except.bind, Except.map]
      | .obj gs, h1, hnav =>
        have hgs : isWFFields gs = true := h1
        have hnags : noArgsFields gs = true := hnav
        have hsz2 : sizeOf gs ≤ n := by
          simp only [JSValue.obj.sizeOf_spec] at hsz
          omega
        rw [buildFields_cons_obj_noargs k gs rest hk (lookup_args_of_noArgs gs hnags)]
        rw [show buildGraphQLQuery (JSValue.obj gs)
            = (buildFields gs).map (String.intercalate " ") from rfl]
        rw [ih gs hsz2 hgs hnags, ih rest (by omega) h2 hnarest]
        simp only [List.map_cons, specFieldText, specSelText, specFieldList_eq_map,
          Bind.bind, Except.bind, Except.map]

theorem createGraphQLError_none (fs : List (String × JSValue))
    (h : lacksErrors fs = true) :
    createGraphQLError (JSValue.obj fs) = Except.ok none := by
  rw [lacksErrors] at h
  rcases hl : List.lookup "errors" fs with _ | v
  · have hany : (fs.any (fun p => p.1 == "errors")) = false := by
      rw [any_key_eq_lookup_isSome, hl]; rfl
    rw [createGraphQLError]
    simp [jsIn, Bind.bind, Except.bind, hany]
  · rw [hl] at h
    have hany : (fs.any (fun p => p.1 == "errors")) = true := by
      rw [any_key_eq_lookup_isSome, hl]; rfl
    rw [createGraphQLError]
    match v, h with
    | .zod leaf, _ => simp [jsIn, Bind.bind, Except.bind, hany, getPropD, hl, truthy]
    | .arr [], _ => simp [jsIn, Bind.bind, Except.bind, hany, getPropD, hl, truthy]
    | .obj _, _ => simp [jsIn, Bind.bind, Except.bind, hany, getPropD, hl, truthy]
    | .str s, _ =>
      by_cases hs : s = ""
      · subst hs; simp [jsIn, Bind.bind, Except.bind, hany, getPropD, hl, truthy]
      · simp [jsIn, Bind.bind, Except.bind, hany, getPropD, hl, truthy, hs]
    | .num n, _ =>
      by_cases hn : n = 0
      · subst hn; simp [jsIn, Bind.bind, Except.bind, hany, getPropD, hl, truthy]
      · simp [jsIn, Bind.bind, Except.bind, hany, getPropD, hl, truthy, hn]
    | .bool b, _ =>
      cases b
      · simp [jsIn, Bind.bind, Except.bind, hany, getPropD, hl, truthy]
      · simp [jsIn, Bind.bind, Except.bind, hany, getPropD, hl, truthy]
    | .jnull, _ => simp [jsIn, Bind.bind, Except.bind, hany, getPropD, hl, truthy]
    | .undefined, _ => simp [jsIn, Bind.bind, Except.bind, hany, getPropD, hl, truthy]

theorem createGraphQLError_wf (fs : List (String × JSValue)) (es : List JSValue)
    (herr : List.lookup "errors" fs = some (JSValue.arr es))
    (hne : es ≠ []) (hwf : es.all wfError = true) :
    createGraphQLError (JSValue.obj fs)
      = Except.ok (some (String.intercalate "\n\n" (es.map specErrorBlock),
          JSValue.arr es)) := by
  have hany : (fs.any (fun p => p.1 == "errors")) = true := by
    rw [any_key_eq_lookup_isSome, herr]; rfl
  rw [createGraphQLError]
  simp [jsIn, Bind.bind, Except.bind, hany, getPropD, herr, truthy, hne,
    formatBlocks_wf es hwf]

theorem buildFields_cons_obj_args (k : String) (args gs rest : List (String × JSValue))
    (hk : ¬ k = "_args") (hl : List.lookup "_args" gs = some (JSValue.obj args))
    (hne : args ≠ []) :
    buildFields ((k, JSValue.obj gs) :: rest) = (do
      let inner ← buildGraphQLQuery (JSValue.obj gs)
      let tail ← buildFields rest
      Except.ok ((k ++ ("(" ++ String.intercalate ", "
          (args.map (fun p => p.1 ++ ": " ++ jsToString p.2)) ++ ")")
          ++ " \x7b " ++ inner ++ " \x7d") :: tail)) := by
  simp only [buildFields, if_neg hk]
  rw [show getProp (JSValue.obj gs) "_args" = Except.ok (JSValue.obj args) from by
    simp [getProp, getPropD, hl]]
  have hlen : 0 < args.length := List.length_pos.mpr hne
  simp [truthy, isZodSchema, jsTypeof, objEntries, Bind.bind, Except.bind, hlen]

theorem buildFields_cons_obj_empty_args (k : String) (gs rest : List (String × JSValue))
    (hk : ¬ k = "_args") (hl : List.lookup "_args" gs = some (JSValue.obj [])) :
    buildFields ((k, JSValue.obj gs) :: rest) = (do
      let inner ← buildGraphQLQuery (JSValue.obj gs)
      let tail ← buildFields rest
      Except.ok ((k ++ " \x7b " ++ inner ++ " \x7d") :: tail)) := by
  simp only [buildFields, if_neg hk]
  rw [show getProp (JSValue.obj gs) "_args" = Except.ok (JSValue.obj []) from by
    simp [getProp, getPropD, hl]]
  simp [truthy, isZodSchema, jsTypeof, objEntries, Bind.bind, Except.bind,
    String.append_empty]

/-! Claim theorems. -/

/-- C1 counterexample: a response envelope whose errors list is
non-empty while the data field is also populated makes execute return
the data successfully; the GraphQL protocol error is not raised, so the
error list is not checked before the data field. -/
theorem c1_counterexample :
    executeResponse (fun _ _ => true) none
      (JSValue.obj [("data", JSValue.obj [("a", JSValue.num 1)]),
        ("errors", JSValue.arr [JSValue.obj [("message", JSValue.str "boom")]])])
      = ExecOutcome.success (JSValue.obj [("a", JSValue.num 1)])
    ∧ isProtocolError (executeResponse (fun _ _ => true) none
        (JSValue.obj [("data", JSValue.obj [("a", JSValue.num 1)]),
          ("errors", JSValue.arr [JSValue.obj [("message", JSValue.str "boom")]])])) = false :=
  ⟨rfl, rfl⟩

/-- C1 amended: execute classifies the envelope by the data field first:
whenever the envelope carries a truthy data property, execute takes the
data path (validated return or validation failure) and never raises the
GraphQL protocol error or throws null, even if a non-empty errors list
is also present. -/
theorem c1_amended (acc : ZodLeaf → JSValue → Bool) (schema : Option ZodSchema)
    (fs : List (String × JSValue))
    (h : truthy (getPropD (JSValue.obj fs) "data") = true) :
    isProtocolError (executeResponse acc schema (JSValue.obj fs)) = false
    ∧ executeResponse acc schema (JSValue.obj fs) ≠ ExecOutcome.thrownNull := by
  have hsome : (List.lookup "data" fs).isSome = true := by
    cases hl : List.lookup "data" fs with
    | none =>
      rw [show getPropD (JSValue.obj fs) "data" = JSValue.undefined from by
        simp [getPropD, hl]] at h
      exact Bool.noConfusion h
    | some dv => rfl
  have hcond : (fs.any (fun p => p.1 == "data")
      && truthy (getPropD (JSValue.obj fs) "data")) = true := by
    rw [any_key_eq_lookup_isSome, hsome, h]; rfl
  constructor
  · rw [executeResponse]
    simp only [jsIn]
    rw [if_pos hcond]
    cases schema with
    | none => rfl
    | some s =>
      cases hsp : safeParse acc s (getPropD (JSValue.obj fs) "data") with
      | none => simp [hsp, isProtocolError]
      | some d => simp [hsp, isProtocolError]
  · rw [executeResponse]
    simp only [jsIn]
    rw [if_pos hcond]
    cases schema with
    | none => exact fun hh => ExecOutcome.noConfusion hh
    | some s =>
      cases hsp : safeParse acc s (getPropD (JSValue.obj fs) "data") with
      | none => simp [hsp]
      | some d => simp [hsp]

/-- C1 amended witness at a concrete envelope with truthy data. -/
theorem c1_amended_witness :
    isProtocolError (executeResponse (fun _ _ => true) none
      (JSValue.obj [("data", JSValue.num 7),
        ("errors", JSValue.arr [JSValue.obj [("message", JSValue.str "boom")]])])) = false
    ∧ executeResponse (fun _ _ => true) none
        (JSValue.obj [("data", JSValue.num 7),
          ("errors", JSValue.arr [JSValue.obj [("message", JSValue.str "boom")]])])
        ≠ ExecOutcome.thrownNull :=
  c1_amended (fun _ _ => true) none
    [("data", JSValue.num 7),
      ("errors", JSValue.arr [JSValue.obj [("message", JSValue.str "boom")]])] (by rfl)

/-- C4: for every errors-only response envelope carrying a non-empty
well-formed error list, execute fails with the GraphQL protocol error
whose single message concatenates, per error, the GraphQL Error line,
the optional location line, and the optional dot-joined Path line, with
consecutive blocks separated by a blank line, and the original
structured error list attached to the failure. -/
theorem c4_protocol_error_format (acc : ZodLeaf → JSValue → Bool)
    (schema : Option ZodSchema) (fs : List (String × JSValue)) (es : List JSValue)
    (hdata : truthy (getPropD (JSValue.obj fs) "data") = false)
    (herr : List.lookup "errors" fs = some (JSValue.arr es))
    (hne : es ≠ []) (hwf : es.all wfError = true) :
    executeResponse acc schema (JSValue.obj fs)
      = ExecOutcome.protocolError
          (String.intercalate "\n\n" (es.map specErrorBlock)) (JSValue.arr es) := by
  rw [executeResponse]
  simp only [jsIn]
  rw [if_neg (by simp [hdata])]
  rw [createGraphQLError_wf fs es herr hne hwf]

/-- C4 witness: the concrete envelope of the claim, whose failure
message contains the GraphQL Error line and the dot-joined path. -/
theorem c4_witness :
    executeResponse (fun _ _ => true) none
      (JSValue.obj [("errors", JSValue.arr [JSValue.obj
        [("message", JSValue.str "Not found"),
          ("path", JSValue.arr [JSValue.str "user", JSValue.str "name"])]])])
      = ExecOutcome.protocolError "GraphQL Error: Not found\nPath: user.name"
          (JSValue.arr [JSValue.obj
            [("message", JSValue.str "Not found"),
              ("path", JSValue.arr [JSValue.str "user", JSValue.str "name"])]]) :=
  c4_protocol_error_format (fun _ _ => true) none
    [("errors", JSValue.arr [JSValue.obj
      [("message", JSValue.str "Not found"),
        ("path", JSValue.arr [JSValue.str "user", JSValue.str "name"])]])]
    [JSValue.obj [("message", JSValue.str "Not found"),
      ("path", JSValue.arr [JSValue.str "user", JSValue.str "name"])]]
    (by rfl) (by rfl) (by simp) (by rfl)

/-- C5: typed-with-variables construction with any variable whose leaf
lacks a type name fails synchronously with the construction error for
that variable, for every query shape, so the failure precedes the
production of any query text and any network activity. -/
theorem c5_unnamed_variable (url name v : String) (i : Nat)
    (pre post : List (String × ZodLeaf)) (query : JSValue)
    (hpre : pre.all (fun p => p.2.tyName.isSome) = true) :
    Query.typed url name (pre ++ (v, ⟨i, none⟩) :: post) query
      = Except.error ("variable " ++ v ++ " type not named") := by
  rw [Query.typed]
  rw [if_pos (by simp)]
  rw [mapM_renderVariable_error v i pre post hpre]
  rfl

/-- C5 witness at a concrete Variable Set whose second leaf is
unnamed. -/
theorem c5_witness :
    Query.typed "u" "Q" [("userId", ⟨0, some "Int"⟩), ("type", ⟨1, none⟩)]
      (JSValue.obj [("f", JSValue.zod ⟨2, none⟩)])
      = Except.error "variable type type not named" :=
  c5_unnamed_variable "u" "Q" "type" 1 [("userId", ⟨0, some "Int"⟩)] []
    (JSValue.obj [("f", JSValue.zod ⟨2, none⟩)]) (by rfl)

/-- C6 counterexample: the variable-list compiler renders the list
without any spaces, `($a:Int,$b:String)`, not in the claimed spaced
format `($a: Int, $b: String)`. -/
theorem c6_counterexample :
    (Query.typed "u" "Q" [("a", ⟨0, some "Int"⟩), ("b", ⟨1, some "String"⟩)]
        (JSValue.obj [("f", JSValue.zod ⟨2, none⟩)])).map Query.query
      = Except.ok "query Q($a:Int,$b:String) \x7bf\x7d"
    ∧ "query Q($a:Int,$b:String) \x7bf\x7d" ≠ "query Q($a: Int, $b: String) \x7bf\x7d" :=
  ⟨rfl, by decide⟩

/-- C6 amended: when every leaf of a non-empty Variable Set has a type
name, the variable-list compiler renders `($v1:Type1,$v2:Type2,...)` —
one `$name:Type` entry per variable with no spaces, joined by bare
commas, in insertion order — prefixed to the query body. -/
theorem c6_amended (url name : String) (vars : List (String × ZodLeaf))
    (query : JSValue) (hne : vars ≠ [])
    (hall : vars.all (fun p => p.2.tyName.isSome) = true) :
    Query.typed url name vars query = (do
      let body ← buildGraphQLQuery query
      let schema ← createZodSchemaFromShape query
      Except.ok ⟨url, "query " ++ name
        ++ ("(" ++ String.intercalate ","
            (vars.map (fun p => "$" ++ p.1 ++ ":" ++ p.2.tyName.getD "")) ++ ")")
        ++ " \x7b" ++ body ++ "\x7d", some schema⟩) := by
  rw [Query.typed]
  rw [if_pos (by simpa using List.length_pos.mpr hne)]
  rw [mapM_renderVariable_ok vars hall]
  rfl

/-- C6 amended witness at a concrete two-variable set. -/
theorem c6_amended_witness :
    Query.typed "u" "Q" [("a", ⟨0, some "Int"⟩), ("b", ⟨1, some "String"⟩)]
      (JSValue.obj [("f", JSValue.zod ⟨2, none⟩)])
      = Except.ok ⟨"u", "query Q($a:Int,$b:String) \x7bf\x7d",
          some (ZodSchema.objectSchema [("f", ZodSchema.leafSchema ⟨2, none⟩)])⟩ :=
  c6_amended "u" "Q" [("a", ⟨0, some "Int"⟩), ("b", ⟨1, some "String"⟩)]
    (JSValue.obj [("f", JSValue.zod ⟨2, none⟩)]) (by simp) (by rfl)

/-- C7: for every well-formed Shape Tree without `_args`, the Query
Compiler emits exactly the per-field texts of the tree in the mapping
insertion order, joined by single spaces, so the output field order
equals the insertion order at every level. -/
theorem c7_insertion_order (fs : List (String × JSValue))
    (hwf : isWFFields fs = true) (hna : noArgsFields fs = true) :
    buildGraphQLQuery (JSValue.obj fs)
      = Except.ok (String.intercalate " " (fs.map specFieldText)) := by
  rw [show buildGraphQLQuery (JSValue.obj fs)
      = (buildFields fs).map (String.intercalate " ") from rfl,
    buildFields_noargs_spec fs hwf hna]
  rfl

/-- C7 witness at a concrete three-field tree with a nested object and
an array template. -/
theorem c7_witness :
    buildGraphQLQuery (JSValue.obj [("b", JSValue.zod ⟨0, none⟩),
      ("a", JSValue.obj [("c", JSValue.zod ⟨1, none⟩)]),
      ("d", JSValue.arr [JSValue.obj [("e", JSValue.zod ⟨2, none⟩)]])])
      = Except.ok "b a \x7b c \x7d d \x7b e \x7d" :=
  c7_insertion_order [("b", JSValue.zod ⟨0, none⟩),
    ("a", JSValue.obj [("c", JSValue.zod ⟨1, none⟩)]),
    ("d", JSValue.arr [JSValue.obj [("e", JSValue.zod ⟨2, none⟩)]])] (by rfl) (by rfl)

/-- C8: an Array-node child (single-element sequence holding the
template) emits the field name followed by the compiled selection set of
the template, determined entirely at construction; in particular the
template with one `media.title` leaf compiles to the claimed text. -/
theorem c8_array_template (k : String) (hk : ¬ k = "_args") :
    (∀ (t : JSValue) (rest : List (String × JSValue)),
      buildFields ((k, JSValue.arr [t]) :: rest) = (do
        let inner ← buildGraphQLQuery t
        let tail ← buildFields rest
        Except.ok ((k ++ " \x7b " ++ inner ++ " \x7d") :: tail)))
    ∧ buildGraphQLQuery (JSValue.obj [("field", JSValue.arr
        [JSValue.obj [("media", JSValue.obj [("title", JSValue.zod ⟨0, none⟩)])]])])
      = Except.ok "field \x7b media \x7b title \x7d \x7d" := by
  constructor
  · intro t rest
    exact buildFields_cons_arr k t [] rest hk
  · rfl

/-- C8 witness instantiating the general equation at the concrete
template of the claim. -/
theorem c8_witness :
    buildFields [("field", JSValue.arr
      [JSValue.obj [("media", JSValue.obj [("title", JSValue.zod ⟨0, none⟩)])]])]
      = (do
        let inner ← buildGraphQLQuery
          (JSValue.obj [("media", JSValue.obj [("title", JSValue.zod ⟨0, none⟩)])])
        let tail ← buildFields []
        Except.ok (("field" ++ " \x7b " ++ inner ++ " \x7d") :: tail)) :=
  (c8_array_template "field" (by decide)).1
    (JSValue.obj [("media", JSValue.obj [("title", JSValue.zod ⟨0, none⟩)])]) []

/-- C9 counterexample: a Shape Tree value that is an empty array —
neither a Leaf, nor a one-element Array-node, nor an Object-node —
does not make construction fail: it is silently treated as an empty
Object-node, producing the selection `k \x7b  \x7d` and the empty
record validator. -/
theorem c9_counterexample :
    Query.typed "u" "Q" [] (JSValue.obj [("k", JSValue.arr [])])
      = Except.ok ⟨"u", "query Q \x7bk \x7b  \x7d\x7d",
          some (ZodSchema.objectSchema [("k", ZodSchema.objectSchema [])])⟩ := rfl

/-- C9 amended: a Shape Tree value whose runtime typeof is not object
(number, string, boolean, undefined) does fail loudly at construction
with an error reporting the offending key and the observed kind, while
values of typeof object that are not valid nodes (such as an empty
array) are silently coerced to empty Object-nodes. -/
theorem c9_amended (url name k : String) (pre : List (String × JSValue)) (v : JSValue)
    (hpre : pre.all (fun p => !(p.1 == "_args") && isZodSchema p.2) = true)
    (hk : ¬ k = "_args") (hv : ¬ jsTypeof v = "object") :
    Query.typed url name [] (JSValue.obj (pre ++ [(k, v)]))
      = Except.error ("unexpected type <" ++ jsTypeof v
          ++ "> in query shape key [" ++ k ++ "]") := by
  rw [Query.typed]
  rw [if_neg (by simp)]
  rw [show buildGraphQLQuery (JSValue.obj (pre ++ [(k, v)]))
      = (buildFields (pre ++ [(k, v)])).map (String.intercalate " ") from rfl]
  rw [buildFields_leaf_append pre k v hpre hv]
  rw [show createZodSchemaFromShape (JSValue.obj (pre ++ [(k, v)]))
      = (czsFields (pre ++ [(k, v)])).map ZodSchema.objectSchema from rfl]
  rw [czsFields_leaf_append_error pre k v hpre hk hv]
  rfl

/-- C9 amended witness: a number-valued key after one leaf key fails
with the exact message naming the kind and the key. -/
theorem c9_amended_witness :
    Query.typed "u" "Q" [] (JSValue.obj [("a", JSValue.zod ⟨0, none⟩), ("k", JSValue.num 5)])
      = Except.error "unexpected type <number> in query shape key [k]" :=
  c9_amended "u" "Q" "k" [("a", JSValue.zod ⟨0, none⟩)] (JSValue.num 5)
    (by rfl) (by decide) (by decide)

/-- C10: when the parsed envelope has no truthy data property and its
errors property is missing, not an array, or empty, createGraphQLError
returns null and execute throws it unconditionally, so execute throws
the value null instead of an Error object. -/
theorem c10_throws_null (acc : ZodLeaf → JSValue → Bool) (schema : Option ZodSchema)
    (fs : List (String × JSValue))
    (hdata : truthy (getPropD (JSValue.obj fs) "data") = false)
    (herr : lacksErrors fs = true) :
    executeResponse acc schema (JSValue.obj fs) = ExecOutcome.thrownNull := by
  rw [executeResponse]
  simp only [jsIn]
  rw [if_neg (by simp [hdata])]
  rw [createGraphQLError_none fs herr]

/-- C10 witness at the concrete envelope of the claim, a JSON body with
a null data field and no errors field. -/
theorem c10_witness :
    executeResponse (fun _ _ => true) none (JSValue.obj [("data", JSValue.jnull)])
      = ExecOutcome.thrownNull :=
  c10_throws_null (fun _ _ => true) none [("data", JSValue.jnull)] (by rfl) (by rfl)

/-- C2: an Object-node child carrying an `_args` mapping emits
`name(arg1: val1, arg2: val2, ...)` followed by the compiled selection
set of its non-`_args` children, with the arguments in insertion order;
the parentheses are omitted entirely when `_args` is absent or empty;
the `_args` key itself is never emitted as a field; and the concrete
claimed example compiles to the claimed text. -/
theorem c2_object_args (k : String) (args children : List (String × JSValue))
    (h1 : ¬ k = "_args") (h2 : args ≠ [])
    (h3 : "_args" ∉ children.map Prod.fst) :
    (∀ rest, buildFields ((k, JSValue.obj (("_args", JSValue.obj args) :: children)) :: rest)
      = (do
        let inner ← buildGraphQLQuery (JSValue.obj children)
        let tail ← buildFields rest
        Except.ok ((k ++ ("(" ++ String.intercalate ", "
            (args.map (fun p => p.1 ++ ": " ++ jsToString p.2)) ++ ")")
            ++ " \x7b " ++ inner ++ " \x7d") :: tail)))
    ∧ (∀ rest, buildFields ((k, JSValue.obj children) :: rest)
      = (do
        let inner ← buildGraphQLQuery (JSValue.obj children)
        let tail ← buildFields rest
        Except.ok ((k ++ " \x7b " ++ inner ++ " \x7d") :: tail)))
    ∧ (∀ rest, buildFields ((k, JSValue.obj (("_args", JSValue.obj []) :: children)) :: rest)
      = (do
        let inner ← buildGraphQLQuery (JSValue.obj children)
        let tail ← buildFields rest
        Except.ok ((k ++ " \x7b " ++ inner ++ " \x7d") :: tail)))
    ∧ (∀ (v : JSValue) (rest : List (String × JSValue)),
        buildFields (("_args", v) :: rest) = buildFields rest)
    ∧ buildGraphQLQuery (JSValue.obj [("name",
        JSValue.obj [("_args", JSValue.obj [("userId", JSValue.str "$userId"),
          ("type", JSValue.str "$type")]), ("a", JSValue.zod ⟨0, none⟩)])])
      = Except.ok "name(userId: $userId, type: $type) \x7b a \x7d" := by
  have hbq : buildGraphQLQuery (JSValue.obj (("_args", JSValue.obj args) :: children))
      = buildGraphQLQuery (JSValue.obj children) := by
    rw [show buildGraphQLQuery (JSValue.obj (("_args", JSValue.obj args) :: children))
        = (buildFields (("_args", JSValue.obj args) :: children)).map
            (String.intercalate " ") from rfl,
      buildFields_args_skip]
    rfl
  have hbq0 : buildGraphQLQuery (JSValue.obj (("_args", JSValue.obj []) :: children))
      = buildGraphQLQuery (JSValue.obj children) := by
    rw [show buildGraphQLQuery (JSValue.obj (("_args", JSValue.obj []) :: children))
        = (buildFields (("_args", JSValue.obj []) :: children)).map
            (String.intercalate " ") from rfl,
      buildFields_args_skip]
    rfl
  have hlookup : List.lookup "_args" children = none :=
    lookup_eq_none_of_not_mem_keys "_args" children h3
  refine ⟨?_, ?_, ?_, buildFields_args_skip, rfl⟩
  · intro rest
    rw [buildFields_cons_obj_args k args (("_args", JSValue.obj args) :: children) rest
      h1 (by simp [List.lookup]) h2, hbq]
  · intro rest
    exact buildFields_cons_obj_noargs k children rest h1 hlookup
  · intro rest
    rw [buildFields_cons_obj_empty_args k (("_args", JSValue.obj []) :: children) rest
      h1 (by simp [List.lookup]), hbq0]

/-- C2 witness: the general equation instantiated at the concrete
Object-node of the claim yields the claimed selection text. -/
theorem c2_witness :
    buildGraphQLQuery (JSValue.obj [("name",
      JSValue.obj [("_args", JSValue.obj [("userId", JSValue.str "$userId"),
        ("type", JSValue.str "$type")]), ("a", JSValue.zod ⟨0, none⟩)])])
      = Except.ok "name(userId: $userId, type: $type) \x7b a \x7d" :=
  (c2_object_args "name"
    [("userId", JSValue.str "$userId"), ("type", JSValue.str "$type")]
    [("a", JSValue.zod ⟨0, none⟩)]
    (by decide) (by simp) (by decide)).2.2.2.2

/-- C3 counterexample: the well-formed Shape Tree whose Array-node
template is itself an Array-node compiles to a record validator keyed by
the element index instead of a nested element validator, so the compiled
validator is not isomorphic to the tree with `_args` removed. -/
theorem c3_counterexample :
    createZodSchemaFromShape (JSValue.obj [("k", JSValue.arr
        [JSValue.arr [JSValue.obj [("a", JSValue.zod ⟨0, none⟩)]]])])
      ≠ Except.ok (specVNode (JSValue.obj [("k", JSValue.arr
        [JSValue.arr [JSValue.obj [("a", JSValue.zod ⟨0, none⟩)]]])])) := by
  intro h
  have h2 : (some 1 : Option Nat) = some 2 :=
    congrArg (fun r : Except String ZodSchema =>
      (r.toOption.bind (fun s => fieldSchema s "k")).map arrayDepth) h
  exact absurd h2 (by decide)

/-- C3 amended: for every well-formed Shape Tree whose Array-node
templates are Object nodes, the Validator Compiler produces exactly the
composite validator isomorphic to the tree with `_args` keys removed —
leaves kept unchanged, array nodes becoming element validators over the
compiled template, object nodes becoming record validators over the
non-`_args` children — and every array validator accepts exactly the
sequences whose elements all satisfy the element validator. -/
theorem c3_amended (fs : List (String × JSValue)) (hwf : isWFFields fs = true) :
    createZodSchemaFromShape (JSValue.obj fs)
      = Except.ok (ZodSchema.objectSchema (specVFields fs))
    ∧ ∀ (acc : ZodLeaf → JSValue → Bool) (t : ZodSchema) (v : JSValue),
        (safeParse acc (ZodSchema.arraySchema t) v).isSome
          = (match v with
             | JSValue.arr es => es.all (fun e => (safeParse acc t e).isSome)
             | _ => false) := by
  constructor
  · rw [show createZodSchemaFromShape (JSValue.obj fs)
        = (czsFields fs).map ZodSchema.objectSchema from rfl,
      czsFields_spec fs hwf]
    rfl
  · intro acc t v
    match v with
    | JSValue.arr es =>
      simp only [safeParse]
      rw [Option.isSome_map', safeParse_list_isSome]
    | JSValue.zod _ => simp [safeParse]
    | JSValue.obj _ => simp [safeParse]
    | JSValue.str _ => simp [safeParse]
    | JSValue.num _ => simp [safeParse]
    | JSValue.bool _ => simp [safeParse]
    | JSValue.jnull => simp [safeParse]
    | JSValue.undefined => simp [safeParse]

/-- C3 amended witness at a concrete tree with a leaf, an `_args` map,
an object-template array node, and a nested object. -/
theorem c3_amended_witness :
    createZodSchemaFromShape (JSValue.obj [
      ("_args", JSValue.obj [("userId", JSValue.str "$userId")]),
      ("x", JSValue.zod ⟨1, none⟩),
      ("lists", JSValue.arr [JSValue.obj [("title", JSValue.zod ⟨0, none⟩)]]),
      ("nested", JSValue.obj [("y", JSValue.zod ⟨2, none⟩)])])
      = Except.ok (ZodSchema.objectSchema [
          ("x", ZodSchema.leafSchema ⟨1, none⟩),
          ("lists", ZodSchema.arraySchema
            (ZodSchema.objectSchema [("title", ZodSchema.leafSchema ⟨0, none⟩)])),
          ("nested", ZodSchema.objectSchema [("y", ZodSchema.leafSchema ⟨2, none⟩)])]) :=
  (c3_amended [
    ("_args", JSValue.obj [("userId", JSValue.str "$userId")]),
    ("x", JSValue.zod ⟨1, none⟩),
    ("lists", JSValue.arr [JSValue.obj [("title", JSValue.zod ⟨0, none⟩)]]),
    ("nested", JSValue.obj [("y", JSValue.zod ⟨2, none⟩)])] (by rfl)).1

end Gql
